import Mathlib

/-!
Verification of the kindling network-protocol analyzer pieces: the DNS
response decoder (`collector/pkg/component/analyzer/network/protocol/dns/
dns_response.go`) and the Dubbo serialization readers (Hessian2, Fastjson,
unsupported). Bytes are modelled as `Nat`, byte strings as `List Nat`,
Go's `data[a:b]` slices as `(data.drop a).take (b - a)`, and operations
that can panic at run time (index out of range, slice bounds out of
range) return `Option`, with `none` standing for the panic.
-/

/-! ## Payload message buffer

Modelled from the spec: the payload message buffer (`payload_message.go`)
is not under `src/`; its cursor-based read primitives are modelled from
the spec's description — big-endian integers, each read returning
`(incomplete, value)`, never succeeding past the end of the buffer, and
leaving the cursor unchanged on failure. -/

/-- Big-endian value of the `w` bytes of `data` starting at `off`. -/
def beVal (data : List Nat) (off w : Nat) : Nat :=
  ((data.drop off).take w).foldl (fun acc b => acc * 256 + b) 0

/-- Modelled from the spec: `read_uint8(offset)` big-endian. -/
def readUInt8 (data : List Nat) (off : Nat) : Bool × Nat :=
  if data.length < off + 1 then (true, 0) else (false, beVal data off 1)

/-- Modelled from the spec: `read_uint16(offset)` big-endian. -/
def readUInt16 (data : List Nat) (off : Nat) : Bool × Nat :=
  if data.length < off + 2 then (true, 0) else (false, beVal data off 2)

/-- Modelled from the spec: `read_uint32(offset)` big-endian. -/
def readUInt32 (data : List Nat) (off : Nat) : Bool × Nat :=
  if data.length < off + 4 then (true, 0) else (false, beVal data off 4)

/-- Modelled from the spec: `read_uint64(offset)` big-endian. -/
def readUInt64 (data : List Nat) (off : Nat) : Bool × Nat :=
  if data.length < off + 8 then (true, 0) else (false, beVal data off 8)

/-- Modelled from the spec: `read_bytes(offset, length) → (new_offset,
bytes | nil)` — nil when `offset+length` exceeds the buffer, in which
case the cursor is unchanged. -/
def readBytes (data : List Nat) (off len : Nat) : Nat × Option (List Nat) :=
  if data.length < off + len then (off, none)
  else (off + len, some ((data.drop off).take len))

/-- Loop of `readUntil`: scan for the delimiter byte from index `i`;
the fuel counts the iterations left (`data.length - i` at entry). -/
def readUntilLoop (data : List Nat) (off delim : Nat) :
    Nat → Nat → Bool × Nat × List Nat
  | 0, _ => (true, off, [])
  | fuel + 1, i =>
    if data.getD i 0 = delim then
      (false, i + 1, (data.drop off).take (i - off))
    else readUntilLoop data off delim fuel (i + 1)

/-- Modelled from the spec: `read_until(offset, delimiter_byte) →
(new_offset, bytes)`; when no delimiter occurs before the end of the
buffer the read is incomplete and the cursor is unchanged. -/
def readUntil (data : List Nat) (off delim : Nat) : Bool × Nat × List Nat :=
  readUntilLoop data off delim (data.length - off) off

/-- Modelled from the spec: `read_length_prefixed_string(offset,
prefix_width)`; reads a `w`-byte big-endian length and then that many
bytes; incomplete (cursor unchanged) when either part runs past the end. -/
def readLengthPrefixedString (data : List Nat) (off w : Nat) :
    Bool × Nat × List Nat :=
  if data.length < off + w then (true, off, [])
  else if data.length < off + w + beVal data off w then (true, off, [])
  else (false, off + w + beVal data off w,
    (data.drop (off + w)).take (beVal data off w))

/-- Attribute values: int64, string or bool (`model.AttributeMap`). -/
inductive AttrVal where
  | i : Int → AttrVal
  | s : String → AttrVal
  | b : Bool → AttrVal
  deriving DecidableEq, Repr

/-- `protocol.PayloadMessage`: a byte view, a cursor and the attribute
map. The map is modelled as a prepend list with first-match lookup, so
the latest write to a key wins, as for a map. -/
structure PayloadMessage where
  data : List Nat
  offset : Nat
  attributes : List (String × AttrVal)
  deriving DecidableEq, Repr

/-- `AddStringAttribute`. -/
def addStringAttribute (m : PayloadMessage) (k : String) (v : String) :
    PayloadMessage :=
  { m with attributes := (k, AttrVal.s v) :: m.attributes }

/-- `AddIntAttribute`. -/
def addIntAttribute (m : PayloadMessage) (k : String) (v : Int) :
    PayloadMessage :=
  { m with attributes := (k, AttrVal.i v) :: m.attributes }

/-- `AddBoolAttribute`. -/
def addBoolAttribute (m : PayloadMessage) (k : String) (v : Bool) :
    PayloadMessage :=
  { m with attributes := (k, AttrVal.b v) :: m.attributes }

/-- First-match lookup in an attribute list. -/
def lookupAttr : List (String × AttrVal) → String → Option AttrVal
  | [], _ => none
  | kv :: rest, k => if kv.1 = k then some kv.2 else lookupAttr rest k

/-- Look up an attribute by key (first match = latest write). -/
def getAttr (m : PayloadMessage) (k : String) : Option AttrVal :=
  lookupAttr m.attributes k

namespace constlabels

/-- Modelled from the spec: the DNS attribute keys. -/
def DnsDomain : String := "dns.domain"

def DnsIp : String := "dns.ip"

def DnsId : String := "dns.id"

def DnsRcode : String := "dns.rcode"

def IsError : String := "is_error"

def ErrorType : String := "error_type"

/-- Modelled from the spec: the protocol-error error-type constant. -/
def ProtocolError : Int := 1

end constlabels

/-! ## DNS response decoder (`dns_response.go`) -/

/-- `TypeA uint16 = 1`. -/
def TypeA : Nat := 1

/-- `TypeAAAA uint16 = 28`. -/
def TypeAAAA : Nat := 28

/-- Modelled from the spec: the 12-byte DNS header size (`DNSHeaderSize`
is declared in a file not under `src/`). -/
def DNSHeaderSize : Nat := 12

/-- Modelled from the spec: the maximum DNS message size
(`MaxMessageSize`, 512 bytes for DNS over UDP). -/
def MaxMessageSize : Nat := 512

/-- Modelled from the spec: the accepted total resource-record count
(`MAX_NUM_RR`, e.g. 25). -/
def MaxNumRR : Nat := 25

/-- `fastfailDnsResponse`: reject when
`len(message.Data) <= DNSHeaderSize || len(message.Data) > MaxMessageSize`. -/
def fastfailDnsResponse (m : PayloadMessage) : Bool :=
  if m.data.length ≤ DNSHeaderSize ∨ m.data.length > MaxMessageSize then true
  else false

/-- Byte list to Go string. -/
def bytesToString (bs : List Nat) : String :=
  String.mk (bs.map Char.ofNat)

/-- Label separator for domain names. -/
def dotSep : String := "."

/-- Comma separator used by `strings.Join(ips, ",")`. -/
def commaSep : String := ","

/-- Modelled from the spec: one DNS question name, read label by label
with message compression (a length byte `L` starts a label; `L = 0` ends
the name; `L ≥ 0xc0` is a two-byte compression pointer). Returns the
offset just past the name in the stream and the labels; `none` on a
malformed or out-of-bounds name. Fuel bounds pointer chasing. -/
def readDnsName (data : List Nat) : Nat → Nat → Option (Nat × List String)
  | 0, _ => none
  | fuel + 1, off =>
    match data.get? off with
    | none => none
    | some L =>
      if L = 0 then some (off + 1, [])
      else if 0xc0 ≤ L then
        match data.get? (off + 1) with
        | none => none
        | some b2 =>
          match readDnsName data fuel (((L &&& 0x3f) <<< 8) + b2) with
          | none => none
          | some (_, labels) => some (off + 2, labels)
      else
        if off + 1 + L ≤ data.length then
          match readDnsName data fuel (off + 1 + L) with
          | none => none
          | some (o, labels) =>
            some (o, bytesToString ((data.drop (off + 1)).take L) :: labels)
        else none

/-- Modelled from the spec: the question-section loop of `readQuery`
(not under `src/`): for each question read the name, then skip the
4 bytes of qtype and qclass; the last question's domain is kept. -/
def readQueryLoop (data : List Nat) (fuel : Nat) :
    Nat → Nat → String → Option (Nat × String)
  | 0, off, dom => some (off, dom)
  | n + 1, off, dom =>
    match readDnsName data fuel off with
    | none => none
    | some (o, labels) =>
      readQueryLoop data fuel n (o + 4)
        (String.intercalate dotSep labels)

/-- Modelled from the spec: `readQuery(message, numOfQuestions)` — parse
the question section starting after the 12-byte header, set the message
offset past it and return the domain; `none` on error. -/
def readQuery (m : PayloadMessage) (numOfQuestions : Nat) :
    Option (PayloadMessage × String) :=
  match readQueryLoop m.data (m.data.length + 1) numOfQuestions
      (m.offset + DNSHeaderSize) "" with
  | none => none
  | some (off, dom) => some ({ m with offset := off }, dom)

/-- Modelled from the spec: `net.IP.String()` for the dotted-quad case;
other lengths render as an opaque placeholder. -/
def ipString (bs : List Nat) : String :=
  match bs with
  | [a, b, c, d] =>
    toString a ++ dotSep ++ toString b ++ dotSep ++ toString c ++ dotSep
      ++ toString d
  | _ => "?"

/-- `strings.Join(elems, sep)`. -/
def stringsJoin (sep : String) (elems : List String) : String :=
  match elems with
  | [] => ""
  | x :: xs => xs.foldl (fun acc s => acc ++ sep ++ s) x

/-- The answer loop of `readIpV4Answer`: for each answer skip the 2-byte
name, read the 2-byte type, skip class and ttl (8 bytes together with
the type), read the 2-byte rdlength, and for `TypeA` read the rdata as
an IP; any incomplete read breaks the loop. After a successful
`ReadBytes` the code both takes the returned offset and adds the length
again, exactly as the source does. -/
def readIpV4AnswerLoop (data : List Nat) :
    Nat → Nat → List String → Nat × List String
  | 0, offset, ips => (offset, ips)
  | n + 1, offset, ips =>
    let offset := offset + 2
    let r1 := readUInt16 data offset
    if r1.1 then (offset, ips)
    else
      let aType := r1.2
      let offset := offset + 8
      let r2 := readUInt16 data offset
      if r2.1 then (offset, ips)
      else
        let length := r2.2
        let offset := offset + 2
        if aType = TypeA then
          match readBytes data offset length with
          | (_, none) => (offset, ips)
          | (o, some ip) =>
            readIpV4AnswerLoop data n (o + length) (ips ++ [ipString ip])
        else readIpV4AnswerLoop data n (offset + length) ips

/-- `readIpV4Answer(message, answerCount)`: run the answer loop from the
message offset, store the final offset back, and comma-join the
collected addresses (empty string when none). -/
def readIpV4Answer (m : PayloadMessage) (answerCount : Nat) :
    PayloadMessage × String :=
  let r := readIpV4AnswerLoop m.data answerCount m.offset []
  ({ m with offset := r.1 },
    if r.2.length = 0 then "" else stringsJoin commaSep r.2)

/-- `parseDnsResponse`: read the header fields, reject when `qr == 0`,
`opcode > 2`, `rcode > 5`, `QDCOUNT == 0` or the (uint16-wrapped) total
record count exceeds `MaxNumRR`; otherwise parse the question section,
read the A answers, and write the attributes. -/
def parseDnsResponse (m : PayloadMessage) : Bool × Bool × PayloadMessage :=
  let offset := m.offset
  let id := (readUInt16 m.data offset).2
  let flags := (readUInt16 m.data (offset + 2)).2
  let qr := (flags >>> 15) &&& 0x1
  let opcode := (flags >>> 11) &&& 0xf
  let rcode := flags &&& 0xf
  let numOfQuestions := (readUInt16 m.data (offset + 4)).2
  let numOfAnswers := (readUInt16 m.data (offset + 6)).2
  let numOfAuth := (readUInt16 m.data (offset + 8)).2
  let numOfAddl := (readUInt16 m.data (offset + 10)).2
  -- uint16 addition wraps modulo 2^16
  let numOfRR := (numOfQuestions + numOfAnswers + numOfAuth + numOfAddl) % 65536
  if qr = 0 ∨ opcode > 2 ∨ rcode > 5 ∨ numOfQuestions = 0 ∨ numOfRR > MaxNumRR
  then (false, true, m)
  else
    match readQuery m numOfQuestions with
    | none => (false, true, m)
    | some (m1, domain) =>
      let r := readIpV4Answer m1 numOfAnswers
      let m2 := r.1
      let ip := r.2
      let m3 := addStringAttribute m2 constlabels.DnsDomain domain
      let m4 :=
        if ip.length > 0 then addStringAttribute m3 constlabels.DnsIp ip
        else m3
      let m5 := addIntAttribute m4 constlabels.DnsId (Int.ofNat id)
      let m6 := addIntAttribute m5 constlabels.DnsRcode (Int.ofNat rcode)
      let m7 :=
        if rcode > 0 then
          addIntAttribute (addBoolAttribute m6 constlabels.IsError true)
            constlabels.ErrorType constlabels.ProtocolError
        else m6
      (true, true, m7)

/-- Header field shorthand: the 16-bit id. -/
def dnsId (m : PayloadMessage) : Nat := (readUInt16 m.data m.offset).2

/-- Header field shorthand: the 16-bit flags word. -/
def dnsFlags (m : PayloadMessage) : Nat := (readUInt16 m.data (m.offset + 2)).2

/-- Header field shorthand: OPCODE. -/
def dnsOpcode (m : PayloadMessage) : Nat := (dnsFlags m >>> 11) &&& 0xf

/-- Header field shorthand: RCODE. -/
def dnsRcode (m : PayloadMessage) : Nat := dnsFlags m &&& 0xf

/-- Header field shorthand: QDCOUNT. -/
def dnsQdCount (m : PayloadMessage) : Nat := (readUInt16 m.data (m.offset + 4)).2

/-- Header field shorthand: ANCOUNT. -/
def dnsAnCount (m : PayloadMessage) : Nat := (readUInt16 m.data (m.offset + 6)).2

/-- Header field shorthand: NSCOUNT. -/
def dnsNsCount (m : PayloadMessage) : Nat := (readUInt16 m.data (m.offset + 8)).2

/-- Header field shorthand: ARCOUNT. -/
def dnsArCount (m : PayloadMessage) : Nat := (readUInt16 m.data (m.offset + 10)).2

/-! ## Dubbo serialization readers (`dubbo_serializer.go`) -/

/-- `JsonNextLine = byte(0x0a)`. -/
def JsonNextLine : Nat := 0x0a

/-- `JsonQutoes = byte(0x22)`. -/
def JsonQutoes : Nat := 0x22

/-- `JsonColon = byte(0x3a)`. -/
def JsonColon : Nat := 0x3a

/-- `SerialHessian2 = byte(0x02)`. -/
def SerialHessian2 : Nat := 0x02

/-- `SerialFastjson = byte(0x06)`. -/
def SerialFastjson : Nat := 0x06

namespace dubboHessian

/-- `dubboHessian.eatString`: skip one Hessian2 string starting at
`offset` and return the offset past it. -/
def eatString (data : List Nat) (offset : Nat) : Nat :=
  let dataLength := data.length
  if offset ≥ dataLength then dataLength
  else
    let tag := data.getD offset 0
    if 0x30 ≤ tag ∧ tag ≤ 0x33 then
      if offset + 1 = dataLength then dataLength
      else offset + 2 + ((tag - 0x30) <<< 8) + data.getD (offset + 1) 0
    else offset + 1 + tag

/-- `dubboHessian.getStringValue`: read one Hessian2 string starting at
`offset`; a string running to or past the end of `data` yields the bytes
from the payload start to the end. -/
def getStringValue (data : List Nat) (offset : Nat) : Nat × List Nat :=
  let dataLength := data.length
  if offset ≥ dataLength then (dataLength, [])
  else
    let tag := data.getD offset 0
    if 0x30 ≤ tag ∧ tag ≤ 0x33 then
      if offset + 1 = dataLength then (dataLength, [])
      else
        let stringValueLength := ((tag - 0x30) <<< 8) + data.getD (offset + 1) 0
        let offset := offset + 2
        if offset + stringValueLength ≥ dataLength then
          (dataLength, data.drop offset)
        else
          (offset + stringValueLength, (data.drop offset).take stringValueLength)
    else
      let stringValueLength := tag
      let offset := offset + 1
      if offset + stringValueLength ≥ dataLength then
        (dataLength, data.drop offset)
      else
        (offset + stringValueLength, (data.drop offset).take stringValueLength)

/-- `dubboHessian.getStrValue`: the bounded substring helper used for
key comparison. -/
def getStrValue (data : List Nat) (dataLength index length : Nat) : List Nat :=
  if index ≥ dataLength then []
  else if index + length ≥ data.length then []
  else (data.drop index).take length

/-- The scan loop of `dubboHessian.getStringValueByKey`; the fuel
counts the iterations left (`data.length - i` at entry). -/
def getStringValueByKeyLoop (data key : List Nat) (firstKeyword : Nat) :
    Nat → Nat → Option (List Nat)
  | 0, _ => some []
  | fuel + 1, i =>
    if data.getD i 0 = firstKeyword ∧
        getStrValue data data.length i key.length = key then
      some (getStringValue data (i + key.length)).2
    else getStringValueByKeyLoop data key firstKeyword fuel (i + 1)

/-- `dubboHessian.getStringValueByKey`: scan for the key from `from` and
return the Hessian2 string after it; `key[0]` panics on an empty key,
modelled as `none`. -/
def getStringValueByKey (data : List Nat) (off : Nat) (key : List Nat) :
    Option (List Nat) :=
  match key with
  | [] => none
  | firstKeyword :: _ =>
    getStringValueByKeyLoop data key firstKeyword (data.length - off) off

end dubboHessian

namespace dubboFastJson

/-- The scan loop of `dubboFastJson.eatString`: find the first newline
at or after `i` and return one past it, else the data length; the fuel
counts the iterations left (`data.length - i` at entry). -/
def eatStringLoop (data : List Nat) : Nat → Nat → Nat
  | 0, _ => data.length
  | fuel + 1, i =>
    if data.getD i 0 = JsonNextLine then i + 1
    else eatStringLoop data fuel (i + 1)

/-- `dubboFastJson.eatString`: skip one newline-terminated fragment. -/
def eatString (data : List Nat) (offset : Nat) : Nat :=
  let dataLength := data.length
  if offset ≥ dataLength then dataLength
  else eatStringLoop data (dataLength - (offset + 1)) (offset + 1)

/-- The scan loop of `dubboFastJson.getStringValue`: on the first
newline at `i` the source slices `data[offset+1 : i-1]`, which panics
(modelled `none`) when `i = offset + 1`; the fuel counts the iterations
left (`data.length - i` at entry). -/
def getStringValueLoop (data : List Nat) (offset : Nat) :
    Nat → Nat → Option (Nat × List Nat)
  | 0, _ => some (data.length, [])
  | fuel + 1, i =>
    if data.getD i 0 = JsonNextLine then
      if offset + 1 ≤ i - 1 then
        some (i + 1, (data.drop (offset + 1)).take (i - 1 - (offset + 1)))
      else none
    else getStringValueLoop data offset fuel (i + 1)

/-- `dubboFastJson.getStringValue`: read one newline-terminated quoted
fragment starting at `offset`. -/
def getStringValue (data : List Nat) (offset : Nat) :
    Option (Nat × List Nat) :=
  let dataLength := data.length
  if offset ≥ dataLength then some (dataLength, [])
  else getStringValueLoop data offset (dataLength - (offset + 1)) (offset + 1)

/-- The scan loop of `dubboFastJson.getNextString`: find the closing
quote after `offset` and return the bytes between the quotes; the fuel
counts the iterations left (`dataLength - i` at entry). -/
def getNextStringLoop (data : List Nat) (dataLength offset : Nat) :
    Nat → Nat → List Nat
  | 0, _ => []
  | fuel + 1, i =>
    if data.getD i 0 = JsonQutoes then
      (data.drop (offset + 1)).take (i - (offset + 1))
    else getNextStringLoop data dataLength offset fuel (i + 1)

/-- `dubboFastJson.getNextString`. -/
def getNextString (data : List Nat) (dataLength offset : Nat) : List Nat :=
  if offset ≥ dataLength then []
  else getNextStringLoop data dataLength offset (dataLength - (offset + 1)) (offset + 1)

/-- The scan loop of `dubboFastJson.getStringValueByKey`, tracking the
index of the last unmatched opening quote in `quoteLeft` (`0` doubles as
the no-open-quote sentinel). The unguarded `data[i+1]` and `data[i+2]`
reads of the source panic out of range, modelled as `none`. The fuel
counts the iterations left (`dataLength - i` at entry). -/
def getStringValueByKeyLoop (data key : List Nat) (dataLength : Nat) :
    Nat → Nat → Nat → Option (List Nat)
  | 0, _, _ => some []
  | fuel + 1, i, quoteLeft =>
    if data.getD i 0 = JsonQutoes then
      if quoteLeft = 0 then
        getStringValueByKeyLoop data key dataLength fuel (i + 1) i
      else
        match data.get? (i + 1) with
        | none => none
        | some b1 =>
          if b1 = JsonColon then
            match data.get? (i + 2) with
            | none => none
            | some b2 =>
              if b2 = JsonQutoes then
                if i - quoteLeft - 1 = key.length ∧
                    (data.drop (quoteLeft + 1)).take (i - (quoteLeft + 1)) = key
                then some (getNextString data dataLength (i + 2))
                else getStringValueByKeyLoop data key dataLength fuel (i + 1) 0
              else getStringValueByKeyLoop data key dataLength fuel (i + 1) 0
          else getStringValueByKeyLoop data key dataLength fuel (i + 1) 0
    else getStringValueByKeyLoop data key dataLength fuel (i + 1) quoteLeft

/-- `dubboFastJson.getStringValueByKey`: scan for `"key":"` from `from`
and return the value between the following quotes. -/
def getStringValueByKey (data : List Nat) (off : Nat) (key : List Nat) :
    Option (List Nat) :=
  getStringValueByKeyLoop data key data.length (data.length - off) off 0

end dubboFastJson

namespace dubboUnsupport

/-- `dubboUnsupport.eatString`: always 0. -/
def eatString (_data : List Nat) (_offset : Nat) : Nat := 0

/-- `dubboUnsupport.getStringValue`: always `(0, "")`. -/
def getStringValue (_data : List Nat) (_offset : Nat) :
    Option (Nat × List Nat) := some (0, [])

/-- `dubboUnsupport.getStringValueByKey`: always `""`. -/
def getStringValueByKey (_data : List Nat) (_off : Nat) (_key : List Nat) :
    Option (List Nat) := some []

end dubboUnsupport

/-- The `dubboSerializer` interface: `eatString`, `getStringValue`,
`getStringValueByKey`. Operations that can panic return `Option`; the
Hessian2 readers are total (they always return `some`), so `(0, "")`
from `dubboHessian.getStringValue` is wrapped as `some (0, [])`. -/
structure dubboSerializer where
  eatString : List Nat → Nat → Nat
  getStringValue : List Nat → Nat → Option (Nat × List Nat)
  getStringValueByKey : List Nat → Nat → List Nat → Option (List Nat)

/-- `serialHessian2 = &dubboHessian{}` wrapped in the interface;
`getStringValue` is total, hence wrapped with `some`. -/
def serialHessian2 : dubboSerializer :=
  { eatString := dubboHessian.eatString
    getStringValue := fun data off => some (dubboHessian.getStringValue data off)
    getStringValueByKey := dubboHessian.getStringValueByKey }

/-- `serialFastjson = &dubboFastJson{}` wrapped in the interface. -/
def serialFastjson : dubboSerializer :=
  { eatString := dubboFastJson.eatString
    getStringValue := dubboFastJson.getStringValue
    getStringValueByKey := dubboFastJson.getStringValueByKey }

/-- `serialUnsupport = &dubboUnsupport{}` wrapped in the interface. -/
def serialUnsupport : dubboSerializer :=
  { eatString := dubboUnsupport.eatString
    getStringValue := dubboUnsupport.getStringValue
    getStringValueByKey := dubboUnsupport.getStringValueByKey }

/-- `GetSerializer(serialID)`: Hessian2 for `0x02`, Fastjson for `0x06`,
the unsupported reader otherwise. -/
def GetSerializer (serialID : Nat) : dubboSerializer :=
  if serialID = SerialHessian2 then serialHessian2
  else if serialID = SerialFastjson then serialFastjson
  else serialUnsupport

/-! ## Helper lemmas -/

/-- `readUntilLoop` reports incomplete when no delimiter lies in the
scanned range. -/
lemma readUntilLoop_not_found (data : List Nat) (off delim : Nat) :
    ∀ fuel i, fuel + i ≤ data.length →
      (∀ j, off ≤ j → j < data.length → data.getD j 0 ≠ delim) →
      off ≤ i →
      readUntilLoop data off delim fuel i = (true, off, []) := by
  intro fuel
  induction fuel with
  | zero => intro i _ _ _; rfl
  | succ n ih =>
    intro i hlen hnd hoi
    have hi : i < data.length := by omega
    simp only [readUntilLoop]
    rw [if_neg (hnd i hoi hi)]
    exact ih (i + 1) (by omega) hnd (by omega)

/-- `dubboFastJson.eatStringLoop` returns the offset component of
`dubboFastJson.getStringValueLoop` whenever the latter returns. -/
lemma fastjson_loop_offsets (data : List Nat) (off : Nat) :
    ∀ fuel i p, dubboFastJson.getStringValueLoop data off fuel i = some p →
      dubboFastJson.eatStringLoop data fuel i = p.1 := by
  intro fuel
  induction fuel with
  | zero =>
    intro i p h
    simp only [dubboFastJson.getStringValueLoop] at h
    obtain rfl := Option.some.inj h
    rfl
  | succ n ih =>
    intro i p h
    simp only [dubboFastJson.getStringValueLoop] at h
    simp only [dubboFastJson.eatStringLoop]
    by_cases hnl : data.getD i 0 = JsonNextLine
    · rw [if_pos hnl] at h
      rw [if_pos hnl]
      by_cases hle : off + 1 ≤ i - 1
      · rw [if_pos hle] at h
        obtain rfl := Option.some.inj h
        rfl
      · rw [if_neg hle] at h
        exact absurd h (by simp)
    · rw [if_neg hnl] at h
      rw [if_neg hnl]
      exact ih (i + 1) p h

/-- `readQuery` changes only the offset of the message. -/
lemma readQuery_shape (m : PayloadMessage) (q : Nat) (m1 : PayloadMessage)
    (dom : String) (h : readQuery m q = some (m1, dom)) :
    m1.attributes = m.attributes ∧ m1.data = m.data := by
  unfold readQuery at h
  split at h
  · exact absurd h (by simp)
  · obtain ⟨rfl, rfl⟩ := Prod.mk.injEq .. ▸ Option.some.inj h
    exact ⟨rfl, rfl⟩

/-- `readIpV4Answer` changes only the offset of the message. -/
lemma readIpV4Answer_shape (m : PayloadMessage) (c : Nat) :
    (readIpV4Answer m c).1.attributes = m.attributes ∧
    (readIpV4Answer m c).1.data = m.data := by
  unfold readIpV4Answer
  exact ⟨rfl, rfl⟩

/-! ## Claims -/

/-- C5 (counterexample): a message of exactly `DNSHeaderSize` bytes is
inside the interval `[DNSHeaderSize, MaxMessageSize]` the claim allows,
yet the fast-fail predicate rejects it. -/
theorem dns_fastfail_rejects_header_sized_message :
    fastfailDnsResponse
      { data := List.replicate 12 0, offset := 0, attributes := [] } = true
    ∧ DNSHeaderSize ≤ (List.replicate 12 (0 : Nat)).length
    ∧ (List.replicate 12 (0 : Nat)).length ≤ MaxMessageSize :=
  ⟨by decide, by decide, by decide⟩

/-- C5 (amended): the fast-fail predicate accepts a payload message iff
its data length lies in the half-open interval
`(DNSHeaderSize, MaxMessageSize]`; a message of exactly the 12-byte
header size is rejected. -/
theorem dns_fastfail_iff (m : PayloadMessage) :
    fastfailDnsResponse m = false ↔
      DNSHeaderSize < m.data.length ∧ m.data.length ≤ MaxMessageSize := by
  unfold fastfailDnsResponse
  split
  · next h =>
    simp only [Bool.true_eq_false, false_iff]
    omega
  · next h =>
    simp only [true_iff]
    push_neg at h
    omega

/-- C7: `GetSerializer` is total: `0x02` yields the Hessian2 reader,
`0x06` the Fastjson reader, and every other byte the unsupported reader,
whose `eatString` returns `0`, `getStringValue` returns `(0, "")` and
`getStringValueByKey` returns the empty string, so attribute extraction
on an unknown serialization never fails and yields empty values. -/
theorem getSerializer_total (b : Nat) :
    (b = SerialHessian2 → GetSerializer b = serialHessian2)
    ∧ (b = SerialFastjson → GetSerializer b = serialFastjson)
    ∧ (b ≠ SerialHessian2 → b ≠ SerialFastjson →
        GetSerializer b = serialUnsupport ∧
        ∀ (data : List Nat) (off : Nat) (key : List Nat),
          (GetSerializer b).eatString data off = 0 ∧
          (GetSerializer b).getStringValue data off = some (0, []) ∧
          (GetSerializer b).getStringValueByKey data off key = some []) := by
  refine ⟨fun h => by subst h; rfl, fun h => by subst h; rfl, fun h2 h6 => ?_⟩
  have hu : GetSerializer b = serialUnsupport := by
    unfold GetSerializer
    rw [if_neg h2, if_neg h6]
  exact ⟨hu, fun data off key => by rw [hu]; exact ⟨rfl, rfl, rfl⟩⟩

/-- C7 (witness): `GetSerializer` at the three kinds of ids. -/
theorem getSerializer_total_witness :
    GetSerializer 2 = serialHessian2 ∧ GetSerializer 6 = serialFastjson ∧
    GetSerializer 7 = serialUnsupport ∧
    (GetSerializer 7).eatString [1, 2] 0 = 0 ∧
    (GetSerializer 7).getStringValue [1, 2] 0 = some (0, []) ∧
    (GetSerializer 7).getStringValueByKey [1, 2] 0 [5] = some [] := by
  obtain ⟨hu, hf⟩ := (getSerializer_total 7).2.2 (by decide) (by decide)
  obtain ⟨e1, e2, e3⟩ := hf [1, 2] 0 [5]
  exact ⟨(getSerializer_total 2).1 rfl, (getSerializer_total 6).2.1 rfl,
    hu, e1, e2, e3⟩

/-- C8: no cursor-based read of the payload buffer reports success when
its required bytes extend past the end of the buffer: the fixed-width
integer reads return `(incomplete, 0)`, `read_bytes` returns `nil` with
the cursor unchanged, `read_until` without a delimiter in range and
`read_length_prefixed_string` without enough bytes report incomplete
with the cursor unchanged. -/
theorem payload_reads_never_succeed_past_end (data : List Nat)
    (off n δ w : Nat) :
    (data.length < off + 1 → readUInt8 data off = (true, 0))
    ∧ (data.length < off + 2 → readUInt16 data off = (true, 0))
    ∧ (data.length < off + 4 → readUInt32 data off = (true, 0))
    ∧ (data.length < off + 8 → readUInt64 data off = (true, 0))
    ∧ (data.length < off + n → readBytes data off n = (off, none))
    ∧ ((∀ j, off ≤ j → j < data.length → data.getD j 0 ≠ δ) →
        readUntil data off δ = (true, off, []))
    ∧ (data.length < off + w + beVal data off w →
        readLengthPrefixedString data off w = (true, off, [])):= by
  refine ⟨fun h => ?_, fun h => ?_, fun h => ?_, fun h => ?_, fun h => ?_,
    fun h => ?_, fun h => ?_⟩
  · unfold readUInt8; rw [if_pos h]
  · unfold readUInt16; rw [if_pos h]
  · unfold readUInt32; rw [if_pos h]
  · unfold readUInt64; rw [if_pos h]
  · unfold readBytes; rw [if_pos h]
  · unfold readUntil
    by_cases hoff : off ≤ data.length
    · exact readUntilLoop_not_found data off δ (data.length - off) off
        (by omega) h (Nat.le_refl off)
    · have h0 : data.length - off = 0 := by omega
      rw [h0]
      rfl
  · unfold readLengthPrefixedString
    by_cases h1 : data.length < off + w
    · rw [if_pos h1]
    · rw [if_neg h1, if_pos (by omega)]

/-- C8 (witness): out-of-range reads on the two-byte buffer `[1, 2]`. -/
theorem payload_reads_never_succeed_past_end_witness :
    readUInt16 [1, 2] 1 = (true, 0) ∧ readBytes [1, 2] 1 2 = (1, none) ∧
    readUntil [1, 2] 0 9 = (true, 0, []) ∧
    readLengthPrefixedString [1, 2] 0 2 = (true, 0, []) := by
  have hu : ∀ j, 0 ≤ j → j < ([1, 2] : List Nat).length →
      ([1, 2] : List Nat).getD j 0 ≠ 9 := by
    have hb : ∀ j, j < 2 → ([1, 2] : List Nat).getD j 0 ≠ 9 := by decide
    intro j _ hj
    exact hb j hj
  refine ⟨(payload_reads_never_succeed_past_end [1, 2] 1 2 9 2).2.1 (by decide),
    (payload_reads_never_succeed_past_end [1, 2] 1 2 9 2).2.2.2.2.1 (by decide),
    (payload_reads_never_succeed_past_end [1, 2] 0 2 9 2).2.2.2.2.2.1 hu,
    (payload_reads_never_succeed_past_end [1, 2] 0 2 9 2).2.2.2.2.2.2 (by decide)⟩

/-- C10: the claim that `dubboFastJson.getStringValueByKey` only reads
in bounds is violated: on the 4-byte input `x"a"` the scan reaches the
closing quote at index 3 with an open quote pending and reads
`data[4]`, out of range (a run-time panic in the source, `none` in the
model). -/
theorem fastjson_getStringValueByKey_reads_out_of_bounds :
    dubboFastJson.getStringValueByKey [0x78, 0x22, 0x61, 0x22] 0 [0x6b] =
      none := by decide

/-- C3 (counterexample): on `data = [0x02, 0x61]` the one-byte tag
`0x02` asks for a 2-byte string where only one byte remains, so the read
goes beyond the end of data, yet `getStringValue` returns the truncated
remainder `"a"`, not the empty string. -/
theorem hessian_getStringValue_truncated_not_empty :
    dubboHessian.getStringValue [0x02, 0x61] 0 = (2, [0x61])
    ∧ ([0x02, 0x61] : List Nat).length < 0 + 1 + 0x02 :=
  ⟨by decide, by decide⟩

/-- C3 (amended): `dubboHessian.getStringValue` reads a tag byte `t` at
the offset; for `t ∈ [0x30, 0x33]` the length is `((t-0x30)<<8) |
next_byte` with the payload after the two tag bytes, otherwise the
length is `t` itself with the payload after the one tag byte; when the
string read would reach or pass the end of data the function returns
the bytes from the payload start to the end of data (the empty string
arises only when the tag bytes themselves are out of bounds). -/
theorem hessian_getStringValue_semantics (data : List Nat) (off : Nat)
    (h : off < data.length) :
    ((0x30 ≤ data.getD off 0 ∧ data.getD off 0 ≤ 0x33) →
      (off + 1 = data.length →
        dubboHessian.getStringValue data off = (data.length, []))
      ∧ (off + 1 < data.length →
          (off + 2 + (((data.getD off 0 - 0x30) <<< 8) + data.getD (off + 1) 0)
              < data.length →
            dubboHessian.getStringValue data off =
              (off + 2 + (((data.getD off 0 - 0x30) <<< 8) +
                  data.getD (off + 1) 0),
                (data.drop (off + 2)).take
                  (((data.getD off 0 - 0x30) <<< 8) + data.getD (off + 1) 0)))
          ∧ (data.length ≤
                off + 2 + (((data.getD off 0 - 0x30) <<< 8) +
                  data.getD (off + 1) 0) →
              dubboHessian.getStringValue data off =
                (data.length, data.drop (off + 2)))))
    ∧ (¬(0x30 ≤ data.getD off 0 ∧ data.getD off 0 ≤ 0x33) →
        (off + 1 + data.getD off 0 < data.length →
          dubboHessian.getStringValue data off =
            (off + 1 + data.getD off 0,
              (data.drop (off + 1)).take (data.getD off 0)))
        ∧ (data.length ≤ off + 1 + data.getD off 0 →
            dubboHessian.getStringValue data off =
              (data.length, data.drop (off + 1)))) := by
  constructor
  · intro htag
    constructor
    · intro heq
      simp only [dubboHessian.getStringValue]
      rw [if_neg (by omega), if_pos htag, if_pos heq]
    · intro hlt
      constructor
      · intro hfit
        simp only [dubboHessian.getStringValue]
        rw [if_neg (by omega), if_pos htag, if_neg (by omega),
          if_neg (by omega)]
      · intro hover
        simp only [dubboHessian.getStringValue]
        rw [if_neg (by omega), if_pos htag, if_neg (by omega),
          if_pos (by omega)]
  · intro htag
    constructor
    · intro hfit
      simp only [dubboHessian.getStringValue]
      rw [if_neg (by omega), if_neg htag, if_neg (by omega)]
    · intro hover
      simp only [dubboHessian.getStringValue]
      rw [if_neg (by omega), if_neg htag, if_pos (by omega)]

/-- C3 (witness): a one-byte tag string overrunning a 2-byte buffer
yields the truncated remainder, through the amended theorem. -/
theorem hessian_getStringValue_semantics_witness :
    dubboHessian.getStringValue [0x05, 0x61] 0 = (2, [0x61]) := by
  have h := ((hessian_getStringValue_semantics [0x05, 0x61] 0
    (by decide)).2 (by decide)).2 (by decide)
  simpa using h

/-- C9 (counterexample): on `data = ["\x22", "\x0a"]` (a quote then a
newline) at offset 0, `dubboFastJson.getStringValue` hits the slice
`data[1:0]` and panics (`none` in the model), so it returns no offset
component at all, while `eatString` returns 2. -/
theorem fastjson_getStringValue_panics_on_immediate_newline :
    dubboFastJson.getStringValue [0x22, 0x0a] 0 = none
    ∧ dubboFastJson.eatString [0x22, 0x0a] 0 = 2 :=
  ⟨by decide, by decide⟩

/-- C9 (amended): whenever `dubboFastJson.getStringValue` returns (it
panics exactly when the first newline after the offset is immediately
at `offset+1`), `dubboFastJson.eatString` returns its new-offset
component: both skip to one past the first newline after the offset and
both return the data length when the offset is past the end or no
newline follows. -/
theorem fastjson_eatString_agrees_with_getStringValue (data : List Nat)
    (off : Nat) (p : Nat × List Nat)
    (h : dubboFastJson.getStringValue data off = some p) :
    dubboFastJson.eatString data off = p.1 := by
  simp only [dubboFastJson.getStringValue] at h
  simp only [dubboFastJson.eatString]
  by_cases hoff : off ≥ data.length
  · rw [if_pos hoff] at h
    obtain rfl := Option.some.inj h
    rw [if_pos hoff]
  · rw [if_neg hoff] at h
    rw [if_neg hoff]
    exact fastjson_loop_offsets data off (data.length - (off + 1)) (off + 1) p h

/-- C9 (witness): on `["\x22", "a", "\x0a"]` both functions move the
offset to 3. -/
theorem fastjson_eatString_agrees_witness :
    dubboFastJson.eatString [0x22, 0x61, 0x0a] 0 = 3 :=
  fastjson_eatString_agrees_with_getStringValue [0x22, 0x61, 0x0a] 0
    (3, []) (by decide)

/-- A response whose header counts sum to 65536 (QDCOUNT 1, ANCOUNT
0xffff), with one question for the name `a`. -/
def msgWrapRR : PayloadMessage :=
  { data := [0x12, 0x34, 0x80, 0x00, 0x00, 0x01, 0xff, 0xff, 0x00, 0x00,
      0x00, 0x00, 0x01, 0x61, 0x00, 0x00, 0x01, 0x00, 0x01]
    offset := 0
    attributes := [] }

/-- C1 (counterexample): the mathematical total record count of
`msgWrapRR` is 65536 > `MaxNumRR`, but the `uint16` sum in the code
wraps to 0, so the parser accepts the message and writes attributes,
where the claim demands a definitive reject with no attributes. -/
theorem dns_parse_rr_overflow_accepted :
    dnsQdCount msgWrapRR + dnsAnCount msgWrapRR + dnsNsCount msgWrapRR +
        dnsArCount msgWrapRR = 65536
    ∧ MaxNumRR < 65536
    ∧ (parseDnsResponse msgWrapRR).1 = true
    ∧ (parseDnsResponse msgWrapRR).2.1 = true
    ∧ (parseDnsResponse msgWrapRR).2.2.attributes ≠ [] :=
  ⟨by decide, by decide, by decide, by decide, by decide⟩

/-- C1 (amended): the parser rejects definitively (matched = false,
done = true) and leaves the message untouched — in particular writes no
attributes — whenever the header's OPCODE exceeds 2, or RCODE exceeds
5, or QDCOUNT is 0, or the 16-bit wrapped sum
`(QDCOUNT+ANCOUNT+NSCOUNT+ARCOUNT) mod 2^16` (the `uint16` addition the
code performs) exceeds `MaxNumRR`. -/
theorem dns_parse_rejects_invalid_header (m : PayloadMessage)
    (h : dnsOpcode m > 2 ∨ dnsRcode m > 5 ∨ dnsQdCount m = 0 ∨
      (dnsQdCount m + dnsAnCount m + dnsNsCount m + dnsArCount m) % 65536 >
        MaxNumRR) :
    parseDnsResponse m = (false, true, m) := by
  simp only [dnsOpcode, dnsRcode, dnsQdCount, dnsAnCount, dnsNsCount,
    dnsArCount, dnsFlags] at h
  simp only [parseDnsResponse]
  split
  · rfl
  · next hcond =>
    exfalso
    apply hcond
    rcases h with h | h | h | h
    · exact Or.inr (Or.inl h)
    · exact Or.inr (Or.inr (Or.inl h))
    · exact Or.inr (Or.inr (Or.inr (Or.inl h)))
    · exact Or.inr (Or.inr (Or.inr (Or.inr h)))

/-- A response whose header carries OPCODE 3 (flags `0x9800`). -/
def msgOpcode3 : PayloadMessage :=
  { data := [0x00, 0x00, 0x98, 0x00, 0x00, 0x01, 0x00, 0x00, 0x00, 0x00,
      0x00, 0x00]
    offset := 0
    attributes := [] }

/-- C1 (witness): a message with OPCODE 3 is rejected untouched. -/
theorem dns_parse_rejects_invalid_header_witness :
    parseDnsResponse msgOpcode3 = (false, true, msgOpcode3) :=
  dns_parse_rejects_invalid_header msgOpcode3 (Or.inl (by decide))

/-- C2: on every accepted DNS response built from an attribute-free
message, `dns.id` is the 16-bit header id, `dns.rcode` is the low 4
bits of the flags word, and `is_error` is present (set to true) iff
that rcode is positive. -/
theorem dns_parse_accepted_attributes (m r : PayloadMessage)
    (hattr : m.attributes = [])
    (h : parseDnsResponse m = (true, true, r)) :
    getAttr r constlabels.DnsId = some (AttrVal.i (Int.ofNat (dnsId m)))
    ∧ getAttr r constlabels.DnsRcode =
        some (AttrVal.i (Int.ofNat (dnsRcode m)))
    ∧ (getAttr r constlabels.IsError = some (AttrVal.b true) ↔
        0 < dnsRcode m) := by
  simp only [parseDnsResponse] at h
  split at h
  · exact absurd h (by simp)
  · split at h
    · exact absurd h (by simp)
    · next m1 domain heq =>
      obtain ⟨h1, h2, rfl⟩ := Prod.mk.injEq .. ▸ h
      have hm1 := readQuery_shape m _ m1 domain heq
      have hm2 := readIpV4Answer_shape m1
        (readUInt16 m.data (m.offset + 6)).2
      have hlist :
          (readIpV4Answer m1 (readUInt16 m.data (m.offset + 6)).2).1.attributes
            = [] := by
        rw [hm2.1, hm1.1, hattr]
      simp only [dnsId, dnsRcode, dnsFlags]
      refine ⟨?_, ?_, ?_⟩ <;>
      · split <;> split <;>
          simp_all [getAttr, addIntAttribute, addBoolAttribute,
            addStringAttribute, lookupAttr, constlabels.DnsDomain,
            constlabels.DnsIp, constlabels.DnsId, constlabels.DnsRcode,
            constlabels.IsError, constlabels.ErrorType]

/-- An accepted response with id `0x1234`, RCODE 3 and one question for
the name `a`. -/
def msgRcode3 : PayloadMessage :=
  { data := [0x12, 0x34, 0x80, 0x03, 0x00, 0x01, 0x00, 0x00, 0x00, 0x00,
      0x00, 0x00, 0x01, 0x61, 0x00, 0x00, 0x01, 0x00, 0x01]
    offset := 0
    attributes := [] }

/-- C2 (witness): the accepted response `msgRcode3` carries
`dns.id = 0x1234`, `dns.rcode = 3` and `is_error = true`. -/
theorem dns_parse_accepted_attributes_witness :
    getAttr (parseDnsResponse msgRcode3).2.2 constlabels.DnsId =
      some (AttrVal.i (Int.ofNat (dnsId msgRcode3)))
    ∧ getAttr (parseDnsResponse msgRcode3).2.2 constlabels.DnsRcode =
        some (AttrVal.i (Int.ofNat (dnsRcode msgRcode3)))
    ∧ (getAttr (parseDnsResponse msgRcode3).2.2 constlabels.IsError =
        some (AttrVal.b true) ↔ 0 < dnsRcode msgRcode3) :=
  dns_parse_accepted_attributes msgRcode3 (parseDnsResponse msgRcode3).2.2
    rfl (by decide)

/-- An accepted response with one question for the name `a` and one
AAAA (type 28) answer record carrying a 16-byte address. -/
def msgAAAA : PayloadMessage :=
  { data := [0x00, 0x01, 0x80, 0x00, 0x00, 0x01, 0x00, 0x01, 0x00, 0x00,
      0x00, 0x00,
      0x01, 0x61, 0x00, 0x00, 0x01, 0x00, 0x01,
      0xc0, 0x0c, 0x00, 0x1c, 0x00, 0x01, 0x00, 0x00, 0x00, 0x00, 0x00, 0x10,
      1, 2, 3, 4, 5, 6, 7, 8, 9, 10, 11, 12, 13, 14, 15, 16]
    offset := 0
    attributes := [] }

/-- C4 (counterexample): `msgAAAA` is accepted and its single answer
record has type 28 (AAAA) with well-formed rdata, yet no `dns.ip`
attribute is written — the AAAA record contributes nothing, contrary to
the claim that either record type contributes its address. -/
theorem dns_parse_ignores_aaaa_answer :
    (parseDnsResponse msgAAAA).1 = true
    ∧ (parseDnsResponse msgAAAA).2.1 = true
    ∧ readUInt16 msgAAAA.data 21 = (false, TypeAAAA)
    ∧ getAttr (parseDnsResponse msgAAAA).2.2 constlabels.DnsIp = none :=
  ⟨by decide, by decide, by decide, by decide⟩

/-- C4 (amended): in a one-record answer section whose type and rdlength
fields are readable, a record of any type other than A (type 1) — in
particular AAAA (type 28) — contributes nothing to `dns.ip`, while an A
record with in-bounds rdata contributes its rendered address. -/
theorem dns_answer_collects_only_type_a (m : PayloadMessage) (t L : Nat)
    (ht : readUInt16 m.data (m.offset + 2) = (false, t))
    (hL : readUInt16 m.data (m.offset + 10) = (false, L)) :
    (t ≠ TypeA → (readIpV4Answer m 1).2 = "")
    ∧ (t = TypeA → m.offset + 12 + L ≤ m.data.length →
        (readIpV4Answer m 1).2 =
          ipString ((m.data.drop (m.offset + 12)).take L)) := by
  constructor
  · intro hne
    unfold readIpV4Answer
    simp only [readIpV4AnswerLoop, ht, hL]
    rw [if_neg hne]
    rfl
  · intro he hfit
    subst he
    unfold readIpV4Answer
    simp only [readIpV4AnswerLoop, ht, hL]
    unfold readBytes
    rw [if_neg (show ¬ m.data.length < m.offset + 2 + 8 + 2 + L by omega)]
    simp [stringsJoin]

/-- A bare one-record answer section: an A record with rdata
`93.184.216.34`. -/
def msgARecord : PayloadMessage :=
  { data := [0x00, 0x00, 0x00, 0x01, 0x00, 0x01, 0x00, 0x00, 0x00, 0x00,
      0x00, 0x04, 93, 184, 216, 34]
    offset := 0
    attributes := [] }

/-- A bare one-record answer section: an AAAA record with a 16-byte
address. -/
def msgAAAARecord : PayloadMessage :=
  { data := [0x00, 0x00, 0x00, 0x1c, 0x00, 0x01, 0x00, 0x00, 0x00, 0x00,
      0x00, 0x10, 1, 2, 3, 4, 5, 6, 7, 8, 9, 10, 11, 12, 13, 14, 15, 16]
    offset := 0
    attributes := [] }

/-- C4 (witness): the A record contributes its dotted-quad address, the
AAAA record contributes nothing. -/
theorem dns_answer_collects_only_type_a_witness :
    (readIpV4Answer msgARecord 1).2 = "93.184.216.34"
    ∧ (readIpV4Answer msgAAAARecord 1).2 = "" := by
  constructor
  · have h := (dns_answer_collects_only_type_a msgARecord 1 4
      (by decide) (by decide)).2 rfl (by decide)
    rw [h]
    decide
  · exact (dns_answer_collects_only_type_a msgAAAARecord 28 16
      (by decide) (by decide)).1 (by decide)

/-- Scanning a quote-free range leaves the Fastjson key-scan loop state
unchanged. -/
lemma fastjson_gsbk_skip (data key : List Nat) (ql : Nat) :
    ∀ k i, i + k ≤ data.length →
      (∀ j, i ≤ j → j < i + k → data.getD j 0 ≠ JsonQutoes) →
      dubboFastJson.getStringValueByKeyLoop data key data.length
        (data.length - i) i ql =
      dubboFastJson.getStringValueByKeyLoop data key data.length
        (data.length - (i + k)) (i + k) ql := by
  intro k
  induction k with
  | zero => intro i _ _; rfl
  | succ n ih =>
    intro i hk hnq
    have hf : data.length - i = (data.length - (i + 1)) + 1 := by omega
    rw [hf]
    simp only [dubboFastJson.getStringValueByKeyLoop]
    rw [if_neg (hnq i (Nat.le_refl i) (by omega))]
    have harith : i + (n + 1) = (i + 1) + n := by omega
    rw [harith]
    exact ih (i + 1) (by omega) (fun j hj1 hj2 => hnq j (by omega) (by omega))

/-- Scanning a quote-free range advances the Fastjson `getNextString`
loop without returning. -/
lemma fastjson_gns_skip (data : List Nat) (offv : Nat) :
    ∀ k i, i + k ≤ data.length →
      (∀ j, i ≤ j → j < i + k → data.getD j 0 ≠ JsonQutoes) →
      dubboFastJson.getNextStringLoop data data.length offv
        (data.length - i) i =
      dubboFastJson.getNextStringLoop data data.length offv
        (data.length - (i + k)) (i + k) := by
  intro k
  induction k with
  | zero => intro i _ _; rfl
  | succ n ih =>
    intro i hk hnq
    have hf : data.length - i = (data.length - (i + 1)) + 1 := by omega
    rw [hf]
    simp only [dubboFastJson.getNextStringLoop]
    rw [if_neg (hnq i (Nat.le_refl i) (by omega))]
    have harith : i + (n + 1) = (i + 1) + n := by omega
    rw [harith]
    exact ih (i + 1) (by omega) (fun j hj1 hj2 => hnq j (by omega) (by omega))

/-- C6 (counterexample): `data = "k":"v"` contains the well-formed
field `"k":"v"` at position 0 with `from = 0`, but the scanner misses
it (index 0 collides with the no-open-quote sentinel) and returns the
empty string instead of `v`. -/
theorem fastjson_getStringValueByKey_misses_field_at_zero :
    dubboFastJson.getStringValueByKey
      [0x22, 0x6b, 0x22, 0x3a, 0x22, 0x76, 0x22] 0 [0x6b] = some []
    ∧ some ([] : List Nat) ≠ some [0x76] :=
  ⟨by decide, by decide⟩

/-- C6 (amended): `getStringValueByKey(data, from, key)` returns the
value bytes of a well-formed field `"key":"value"` whose opening quote
sits at a position `p ≥ max(from, 1)` when no quote byte occurs between
`from` and `p` and neither key nor value contain a quote byte; a field
whose opening quote sits at index 0 is missed, because the scanner uses
index 0 as its no-open-quote sentinel. -/
theorem fastjson_getStringValueByKey_finds_field
    (pre key val suf : List Nat) (off : Nat)
    (hpre1 : 1 ≤ pre.length) (hoff : off ≤ pre.length)
    (hpq : ∀ j, off ≤ j → j < pre.length → pre.getD j 0 ≠ JsonQutoes)
    (hkq : JsonQutoes ∉ key) (hvq : JsonQutoes ∉ val) :
    dubboFastJson.getStringValueByKey
      (pre ++ [JsonQutoes] ++ key ++ [JsonQutoes, JsonColon, JsonQutoes] ++
        val ++ [JsonQutoes] ++ suf) off key = some val := by
  set data := pre ++ [JsonQutoes] ++ key ++ [JsonQutoes, JsonColon, JsonQutoes]
    ++ val ++ [JsonQutoes] ++ suf with hdata
  have hdR : data = pre ++ (JsonQutoes :: (key ++ (JsonQutoes :: JsonColon ::
      JsonQutoes :: (val ++ (JsonQutoes :: suf))))) := by
    rw [hdata]; simp [List.append_assoc]
  have hd2 : data = (pre ++ [JsonQutoes]) ++ (key ++ (JsonQutoes :: JsonColon
      :: JsonQutoes :: (val ++ (JsonQutoes :: suf)))) := by
    rw [hdata]; simp [List.append_assoc]
  have hd3 : data = ((pre ++ [JsonQutoes]) ++ key) ++ (JsonQutoes :: JsonColon
      :: JsonQutoes :: (val ++ (JsonQutoes :: suf))) := by
    rw [hdata]; simp [List.append_assoc]
  have hd4 : data = (((pre ++ [JsonQutoes]) ++ key) ++ [JsonQutoes, JsonColon,
      JsonQutoes]) ++ (val ++ (JsonQutoes :: suf)) := by
    rw [hdata]; simp [List.append_assoc]
  have hd5 : data = ((((pre ++ [JsonQutoes]) ++ key) ++ [JsonQutoes,
      JsonColon, JsonQutoes]) ++ val) ++ (JsonQutoes :: suf) := by
    rw [hdata]; simp [List.append_assoc]
  have hl1 : (pre ++ [JsonQutoes]).length = pre.length + 1 := by simp
  have hl2 : ((pre ++ [JsonQutoes]) ++ key).length =
      pre.length + 1 + key.length := by simp; omega
  have hl3 : (((pre ++ [JsonQutoes]) ++ key) ++ [JsonQutoes, JsonColon,
      JsonQutoes]).length = pre.length + 1 + key.length + 3 := by simp; omega
  have hl4 : ((((pre ++ [JsonQutoes]) ++ key) ++ [JsonQutoes, JsonColon,
      JsonQutoes]) ++ val).length =
      pre.length + 1 + key.length + 3 + val.length := by simp; omega
  have hLen : data.length =
      pre.length + key.length + val.length + suf.length + 5 := by
    rw [hdata]; simp; omega
  -- the pre region holds no quote
  have hFpre : ∀ j, off ≤ j → j < pre.length → data.getD j 0 ≠ JsonQutoes := by
    intro j h1 h2
    rw [hdR, List.getD_append _ _ _ _ h2]
    exact hpq j h1 h2
  -- the opening quote
  have hFopen : data.getD pre.length 0 = JsonQutoes := by
    rw [hdR, List.getD_append_right _ _ _ _ (Nat.le_refl _)]
    simp
  -- the key region holds no quote
  have hFkey : ∀ j, pre.length + 1 ≤ j → j < pre.length + 1 + key.length →
      data.getD j 0 ≠ JsonQutoes := by
    intro j h1 h2
    rw [hd2, List.getD_append_right _ _ _ _ (by simp; omega)]
    rw [hl1, List.getD_append _ _ _ _ (by omega)]
    have hmem : key.getD (j - (pre.length + 1)) 0 ∈ key := by
      rw [List.getD_eq_getElem _ _ (by omega)]
      exact List.getElem_mem _
    intro hq
    rw [hq] at hmem
    exact hkq hmem
  -- the key's closing quote
  have hFclose : data.getD (pre.length + 1 + key.length) 0 = JsonQutoes := by
    rw [hd3, List.getD_append_right _ _ _ _ (by simp; omega)]
    rw [hl2, Nat.sub_self]
    rfl
  -- the colon and the value's opening quote
  have hFcolon : data.get? (pre.length + 1 + key.length + 1) =
      some JsonColon := by
    rw [hd3, List.get?_append_right (by simp; omega)]
    rw [hl2]
    have e : pre.length + 1 + key.length + 1 -
        (pre.length + 1 + key.length) = 1 := by omega
    rw [e]
    rfl
  have hFvq : data.get? (pre.length + 1 + key.length + 2) =
      some JsonQutoes := by
    rw [hd3, List.get?_append_right (by simp; omega)]
    rw [hl2]
    have e : pre.length + 1 + key.length + 2 -
        (pre.length + 1 + key.length) = 2 := by omega
    rw [e]
    rfl
  -- the key slice
  have hFkeyslice : (data.drop (pre.length + 1)).take key.length = key := by
    rw [hd2, ← hl1, List.drop_left]
    exact List.take_left key _
  -- the val region holds no quote
  have hFval : ∀ j, pre.length + key.length + 4 ≤ j →
      j < pre.length + key.length + 4 + val.length →
      data.getD j 0 ≠ JsonQutoes := by
    intro j h1 h2
    rw [hd4, List.getD_append_right _ _ _ _ (by simp; omega)]
    rw [hl3, List.getD_append _ _ _ _ (by omega)]
    have hmem : val.getD (j - (pre.length + 1 + key.length + 3)) 0 ∈ val := by
      rw [List.getD_eq_getElem _ _ (by omega)]
      exact List.getElem_mem _
    intro hq
    rw [hq] at hmem
    exact hvq hmem
  -- the value's closing quote
  have hFvclose : data.getD (pre.length + key.length + 4 + val.length) 0 =
      JsonQutoes := by
    rw [hd5, List.getD_append_right _ _ _ _ (by simp; omega)]
    rw [hl4]
    have e : pre.length + key.length + 4 + val.length -
        (pre.length + 1 + key.length + 3 + val.length) = 0 := by omega
    rw [e]
    rfl
  -- the val slice
  have hFvalslice : (data.drop (pre.length + 1 + key.length + 3)).take
      val.length = val := by
    rw [hd4, ← hl3, List.drop_left]
    exact List.take_left val _
  -- walk the scanner
  unfold dubboFastJson.getStringValueByKey
  have hstep1 := fastjson_gsbk_skip data key 0 (pre.length - off) off
    (by omega) (fun j hj1 hj2 => hFpre j hj1 (by omega))
  have e1 : off + (pre.length - off) = pre.length := by omega
  rw [e1] at hstep1
  rw [hstep1]
  have hf2 : data.length - pre.length = (data.length - (pre.length + 1)) + 1 := by
    omega
  rw [hf2]
  simp only [dubboFastJson.getStringValueByKeyLoop]
  rw [if_pos hFopen]
  simp only [if_true]
  have hstep3 := fastjson_gsbk_skip data key pre.length key.length
    (pre.length + 1) (by omega)
    (fun j hj1 hj2 => hFkey j hj1 hj2)
  rw [hstep3]
  have hf4 : data.length - (pre.length + 1 + key.length) =
      (data.length - (pre.length + 1 + key.length + 1)) + 1 := by omega
  rw [hf4]
  simp only [dubboFastJson.getStringValueByKeyLoop]
  rw [if_pos hFclose, if_neg (show ¬ pre.length = 0 by omega)]
  simp only [hFcolon, if_true]
  simp only [hFvq, if_true]
  rw [if_pos ⟨by omega, by rw [Nat.add_sub_cancel_left]; exact hFkeyslice⟩]
  -- now inside getNextString
  unfold dubboFastJson.getNextString
  rw [if_neg (show ¬ pre.length + 1 + key.length + 2 ≥ data.length by omega)]
  have e2 : pre.length + 1 + key.length + 2 + 1 =
      pre.length + key.length + 4 := by omega
  rw [e2]
  have hstep6 := fastjson_gns_skip data (pre.length + 1 + key.length + 2)
    val.length (pre.length + key.length + 4) (by omega)
    (fun j hj1 hj2 => hFval j hj1 hj2)
  rw [hstep6]
  have hf7 : data.length - (pre.length + key.length + 4 + val.length) =
      (data.length - (pre.length + key.length + 4 + val.length + 1)) + 1 := by
    omega
  rw [hf7]
  simp only [dubboFastJson.getNextStringLoop]
  rw [if_pos hFvclose]
  have e3 : pre.length + 1 + key.length + 2 + 1 =
      pre.length + 1 + key.length + 3 := by omega
  rw [e3]
  have e4 : pre.length + key.length + 4 + val.length -
      (pre.length + 1 + key.length + 3) = val.length := by omega
  rw [e4]
  rw [hFvalslice]

/-- C6 (witness): in `{"k":"v"` with `from = 0` (field opening quote at
index 1) the scanner returns `v`. -/
theorem fastjson_getStringValueByKey_finds_field_witness :
    dubboFastJson.getStringValueByKey
      [0x7b, 0x22, 0x6b, 0x22, 0x3a, 0x22, 0x76, 0x22] 0 [0x6b] =
      some [0x76] := by
  have h := fastjson_getStringValueByKey_finds_field [0x7b] [0x6b] [0x76] [] 0
    (by decide) (by decide)
    (fun j h1 h2 => by
      have hj : j = 0 := by
        simp only [List.length_cons, List.length_nil] at h2
        omega
      subst hj
      decide)
    (by decide) (by decide)
  exact h

/-- C5 (witness): a 13-byte message passes fast-fail. -/
theorem dns_fastfail_iff_witness :
    fastfailDnsResponse
      { data := List.replicate 13 0, offset := 0, attributes := [] } =
      false :=
  (dns_fastfail_iff
    { data := List.replicate 13 0, offset := 0, attributes := [] }).mpr
    (by decide)
